import Mathlib

/-!
# Verification of the wiki item scraper (`src/main.py`)

Shallow embedding of the scraper's data model and operations:

* text is modelled as `List Char` (`Str`); the already-stripped
  `get_text(strip=True)` results appear directly in the page model;
* an HTTP response is a status code plus a parsed body; a raised
  exception is the `exn` outcome;
* a detail page is the list of its `infobox-rows` tables in document
  order, each table the list of its `tr` rows; a row carries the
  stripped text of its first `th` and of its first `td`, when present;
* a listing page is the list of its `div-col` regions in document
  order, each the list of its anchor descendants with an `href`;
* the thread pool is modelled as a small-step relation on a state
  holding the not-yet-completed candidates and the shared `items_data`
  list; one step completes one candidate's attempt and appends its
  record under the lock.
-/

/-- Text as a list of characters (the model of Python `str`). -/
abbrev Str := List Char

/-- Python's `pat in s` substring test. -/
def containsSub (pat : Str) : Str → Bool
  | [] => pat.isEmpty
  | c :: rest => pat.isPrefixOf (c :: rest) || containsSub pat rest

/-- Longest prefix of decimal digits, together with the rest
(the behaviour of the greedy `\d+`). -/
def spanDigits : Str → Str × Str
  | [] => ([], [])
  | c :: rest =>
    if c.isDigit then
      let p := spanDigits rest
      (c :: p.1, p.2)
    else ([], c :: rest)

/-- Numeric value of a digit string, as `int()` computes it. -/
def digitsToNat (ds : Str) : Nat :=
  ds.foldl (fun n c => n * 10 + (c.toNat - 48)) 0

/-- Attempt to match the regex `\((\d+)\)` anchored at the start of the
text: an opening parenthesis, one or more digits, a closing
parenthesis; returns the captured integer. -/
def parenMatch (cs : Str) : Option Nat :=
  match cs with
  | '(' :: rest =>
    match spanDigits rest with
    | ([], _) => none
    | (ds, rest2) =>
      match rest2 with
      | ')' :: _ => some (digitsToNat ds)
      | _ => none
  | _ => none

/-- `re.search(r'\((\d+)\)', text)`: try the anchored match at every
position from left to right and return the first (leftmost) match's
captured integer. -/
def findParenInt : Str → Option Nat
  | [] => none
  | c :: rest =>
    match parenMatch (c :: rest) with
    | some n => some n
    | none => findParenInt rest

def yesStr : Str := ['Y', 'e', 's']

def stackableStr : Str := ['S', 't', 'a', 'c', 'k', 'a', 'b', 'l', 'e']

/-- The value-cell branch of `get_stackable_info` (`src/main.py`
lines 59-64): if the text contains `"Yes"`, the first parenthesized
integer or the default 64; otherwise 1. -/
def stackFromText (text : Str) : Nat :=
  if containsSub yesStr text then
    match findParenInt text with
    | some n => n
    | none => 64
  else 1

example : stackFromText ('Y' :: 'e' :: 's' :: ' ' :: '(' :: '1' :: '6' :: ')' :: []) = 16 := by decide
example : stackFromText yesStr = 64 := by decide
example : stackFromText ('N' :: 'o' :: []) = 1 := by decide
example : stackFromText ('(' :: '8' :: ')' :: ' ' :: yesStr ++ ' ' :: '(' :: '1' :: '6' :: ')' :: []) = 8 := by decide

/-- A `tr` row of an infobox table: the stripped text of its first
`th` cell (`row.find('th')`) and of its first `td` cell, when present. -/
structure Row where
  th : Option Str
  td : Option Str
deriving DecidableEq

/-- A detail page: its `infobox-rows` tables in document order, each
the list of its rows in document order. -/
abbrev DetailPage := List (List Row)

/-- Outcome of an HTTP GET: a raised exception (network error,
timeout, parse error), or a response carrying a status code and the
parsed body. -/
inductive FetchOutcome (β : Type) where
  | exn
  | response (status : Nat) (body : β)
deriving DecidableEq

/-- Inner `for row in table.find_all('tr')` loop of
`get_stackable_info`: the first row whose first header cell's stripped
text is exactly `"Stackable"` and which has a value cell decides the
result via `stackFromText`; other rows — including `"Stackable"` rows
without a `td` — are passed over. -/
def scanRows : List Row → Option Nat
  | [] => none
  | row :: rest =>
    match row.th with
    | some h =>
      if h = stackableStr then
        match row.td with
        | some text => some (stackFromText text)
        | none => scanRows rest
      else scanRows rest
    | none => scanRows rest

/-- Outer `for table in infobox_tables` loop of `get_stackable_info`. -/
def scanTables : DetailPage → Option Nat
  | [] => none
  | t :: rest =>
    match scanRows t with
    | some n => some n
    | none => scanTables rest

/-- `get_stackable_info` (`src/main.py` lines 43-68): the whole body
runs inside `try/except Exception: return 1`; a non-200 status returns
1; otherwise the infobox tables are scanned, defaulting to 1 when no
row decides. -/
def get_stackable_info (outcome : FetchOutcome DetailPage) : Nat :=
  match outcome with
  | .exn => 1
  | .response status body =>
    if status ≠ 200 then 1
    else
      match scanTables body with
      | some n => n
      | none => 1

/-- A record appended to `items_data`: `{"item": name, "stack": n}`. -/
structure Record where
  item : Str
  stack : Nat
deriving DecidableEq

/-- `fetch_item_data` (`src/main.py` lines 70-81): one worker's step
for one candidate `(name, url)`; the record it appends to the shared
list under the lock. -/
def fetch_item_data (fetch : Str → FetchOutcome DetailPage) (item : Str × Str) : Record :=
  { item := item.1, stack := get_stackable_info (fetch item.2) }

/-- Spec-form view of the row scan: the first row, over the joined
tables in document order, with header exactly `"Stackable"` AND a
value cell present. -/
def matchingRow (row : Row) : Option Str :=
  match row.th, row.td with
  | some h, some v => if h = stackableStr then some v else none
  | _, _ => none

/-- Spec-form view of `scanTables`: value cell of the first
`"Stackable"` row having one, over all tables in document order. -/
def firstStackableValue (page : DetailPage) : Option Str :=
  page.flatten.findSome? matchingRow

example :
    scanTables [[⟨some stackableStr, none⟩], [⟨some stackableStr, some yesStr⟩]] = some 64 := by
  decide
example :
    firstStackableValue [[⟨some stackableStr, none⟩], [⟨some stackableStr, some yesStr⟩]] =
      some yesStr := by
  decide

/-- A hyperlink with an `href`, inside a `div-col` region: its
stripped visible text and its href attribute. -/
structure Link where
  text : Str
  href : Str
deriving DecidableEq

/-- A listing page: its `div-col` regions in document order, each the
list of its anchor descendants (with `href`) in document order. -/
abbrev ListingPage := List (List Link)

def wikiOrigin : Str :=
  ['h', 't', 't', 'p', 's', ':', '/', '/', 'm', 'i', 'n', 'e', 'c', 'r', 'a', 'f', 't',
   '.', 'w', 'i', 'k', 'i']

def jeStr : Str := ['J', 'E']

def beStr : Str := ['B', 'E']

/-- Inner `for link in div.find_all('a', href=True)` loop of `main`
(`src/main.py` lines 97-107): skip empty text, skip `"JE"`, skip
`"BE"`, else append `(name, "https://minecraft.wiki" + href)`. -/
def extractFromDiv : List Link → List (Str × Str)
  | [] => []
  | link :: rest =>
    if link.text = [] then extractFromDiv rest
    else if link.text = jeStr then extractFromDiv rest
    else if link.text = beStr then extractFromDiv rest
    else (link.text, wikiOrigin ++ link.href) :: extractFromDiv rest

/-- Outer `for div in div_cols` loop of `main`: the `item_tuples`
list built from the listing page. -/
def extractItemTuples : ListingPage → List (Str × Str)
  | [] => []
  | d :: rest => extractFromDiv d ++ extractItemTuples rest

/-- Spec-form link filter: visible text non-empty and not exactly
`"JE"` or `"BE"`. -/
def keepLink (l : Link) : Bool :=
  !l.text.isEmpty && l.text != jeStr && l.text != beStr

/-- The external world seen by one run: the outcome of the listing
GET, and the outcome of the detail GET per URL. -/
structure World where
  listing : FetchOutcome ListingPage
  detail : Str → FetchOutcome DetailPage

/-- Observable outcome of a run of `main` that did not crash. -/
structure RunOutcome where
  /-- Contents written to `minecraft_items.json`; `none` when no file
  was written. -/
  saved : Option (List Record)
  /-- Candidates dispatched to the pool. -/
  dispatched : List (Str × Str)
  /-- Whether the listing-failure message
  `"[!] Failed to retrieve the item listing page"` was printed. -/
  failureLogged : Bool
deriving DecidableEq

/-- `main` (`src/main.py` lines 83-122) for runs without an
interruption: `none` models the process dying on an uncaught
exception from the listing GET (no file written either way); a non-200
listing status prints the failure message and returns before any
candidate is processed; otherwise every candidate is processed and
`save_data` writes `items_data`. -/
def runMain (w : World) : Option RunOutcome :=
  match w.listing with
  | .exn => none
  | .response status body =>
    if status ≠ 200 then some { saved := none, dispatched := [], failureLogged := true }
    else
      let tuples := extractItemTuples body
      some { saved := some (tuples.map (fetch_item_data w.detail)),
             dispatched := tuples,
             failureLogged := false }

/-- Shared state of the worker pool: the candidates whose attempt has
not yet completed, and the `items_data` list guarded by `data_lock`. -/
structure PoolState where
  pending : List (Str × Str)
  results : List Record
deriving DecidableEq

/-- One pool step: some worker completes the attempt for one pending
candidate (wherever it sits in the backlog — completion order is
unconstrained) and appends its record to `items_data` under the
lock. -/
inductive PoolStep (fetch : Str → FetchOutcome DetailPage) : PoolState → PoolState → Prop
  | complete (pre post : List (Str × Str)) (c : Str × Str) (results : List Record) :
      PoolStep fetch ⟨pre ++ c :: post, results⟩
        ⟨pre ++ post, results ++ [fetch_item_data fetch c]⟩

/-- `PoolRun fetch s n s'`: from state `s`, exactly `n` candidate
attempts complete (in any interleaving), reaching state `s'`. -/
inductive PoolRun (fetch : Str → FetchOutcome DetailPage) : PoolState → Nat → PoolState → Prop
  | refl (s : PoolState) : PoolRun fetch s 0 s
  | tail {s₁ : PoolState} {n : Nat} {s₂ s₃ : PoolState} :
      PoolRun fetch s₁ n s₂ → PoolStep fetch s₂ s₃ → PoolRun fetch s₁ (n + 1) s₃

/-! ## Shared lemmas -/

/-- Invariant of the pool: `n` completed attempts have appended
exactly `n` records and removed exactly `n` candidates from the
backlog; surviving backlog entries were already pending, and every
appended record is `fetch_item_data` of some initially pending
candidate. -/
theorem poolRun_invariant {fetch : Str → FetchOutcome DetailPage} {s : PoolState} {n : Nat}
    {s' : PoolState} (h : PoolRun fetch s n s') :
    s'.results.length = s.results.length + n ∧
    s.pending.length = s'.pending.length + n ∧
    (∀ c ∈ s'.pending, c ∈ s.pending) ∧
    (∀ r ∈ s'.results, r ∈ s.results ∨ ∃ c ∈ s.pending, r = fetch_item_data fetch c) := by
  induction h with
  | refl => exact ⟨rfl, rfl, fun _ hc => hc, fun _ hr => Or.inl hr⟩
  | tail hrun hstep ih =>
    obtain ⟨ih1, ih2, ih3, ih4⟩ := ih
    cases hstep with
    | complete pre post c results =>
      simp only [List.length_append, List.length_cons, List.length_nil] at ih1 ih2 ⊢
      refine ⟨by omega, by omega, ?_, ?_⟩
      · intro c' hc'
        apply ih3
        simp only [List.mem_append, List.mem_cons] at hc' ⊢
        tauto
      · intro r hr
        rcases List.mem_append.mp hr with hr | hr
        · exact ih4 r hr
        · right
          refine ⟨c, ih3 c ?_, ?_⟩
          · simp
          · simpa using hr

/-- The inner row loop agrees with `findSome?` over `matchingRow`:
rows without a `"Stackable"` header, and `"Stackable"` rows without a
value cell, are skipped alike. -/
theorem scanRows_eq (rows : List Row) :
    scanRows rows = (rows.findSome? matchingRow).map stackFromText := by
  induction rows with
  | nil => rfl
  | cons row rest ih =>
    simp only [scanRows, List.findSome?_cons]
    cases hth : row.th with
    | none =>
      have hm : matchingRow row = none := by
        simp [matchingRow, hth]
      simp [hm, ih]
    | some h =>
      by_cases hs : h = stackableStr
      · subst hs
        cases htd : row.td with
        | none =>
          have hm : matchingRow row = none := by
            simp [matchingRow, hth, htd]
          simp [htd, hm, ih]
        | some text =>
          have hm : matchingRow row = some text := by
            simp [matchingRow, hth, htd]
          simp [htd, hm]
      · have hm : matchingRow row = none := by
          cases htd : row.td with
          | none => simp [matchingRow, hth, htd]
          | some v => simp [matchingRow, hth, htd, hs]
        simp [hm, hs, ih]

/-- The two nested loops of `get_stackable_info` compute the
`stackFromText` of the first `"Stackable"` row with a value cell, over
all `infobox-rows` tables in document order. -/
theorem scanTables_eq (page : DetailPage) :
    scanTables page = (firstStackableValue page).map stackFromText := by
  induction page with
  | nil => rfl
  | cons t rest ih =>
    simp only [scanTables, firstStackableValue, List.flatten_cons, List.findSome?_append]
    rw [scanRows_eq t]
    simp only [firstStackableValue] at ih
    cases hf : t.findSome? matchingRow with
    | none => simp [hf, ih]
    | some v => simp [hf]

/-- The inner link loop agrees with filter-then-map over `keepLink`. -/
theorem extractFromDiv_eq (links : List Link) :
    extractFromDiv links =
      (links.filter keepLink).map fun l => (l.text, wikiOrigin ++ l.href) := by
  induction links with
  | nil => rfl
  | cons l rest ih =>
    by_cases h1 : l.text = []
    · simp [extractFromDiv, List.filter_cons, keepLink, h1, ih]
    · by_cases h2 : l.text = jeStr
      · simp [extractFromDiv, List.filter_cons, keepLink, h1, h2, ih]
      · by_cases h3 : l.text = beStr
        · simp [extractFromDiv, List.filter_cons, keepLink, h1, h2, h3, ih]
        · simp [extractFromDiv, List.filter_cons, keepLink, h1, h2, h3, ih]

/-- The candidate extraction over all `div-col` regions agrees with
filter-then-map over the flattened regions. -/
theorem extractItemTuples_eq (page : ListingPage) :
    extractItemTuples page =
      (page.flatten.filter keepLink).map fun l => (l.text, wikiOrigin ++ l.href) := by
  induction page with
  | nil => rfl
  | cons d rest ih =>
    simp [extractItemTuples, extractFromDiv_eq, List.filter_append, ih]

/-- `findParenInt` is the leftmost anchored match: it equals trying
`parenMatch` at every start position `0, 1, …` and taking the first
success. -/
theorem findParenInt_eq_range (t : Str) :
    findParenInt t = (List.range t.length).findSome? fun i => parenMatch (t.drop i) := by
  induction t with
  | nil => rfl
  | cons c rest ih =>
    simp only [findParenInt, List.length_cons, List.range_succ_eq_map, List.findSome?_cons,
      List.drop_zero]
    cases hp : parenMatch (c :: rest) with
    | some n => rfl
    | none =>
      rw [List.findSome?_map]
      simpa [Function.comp] using ih


/-! ## Concrete instances used by witnesses -/

/-- A world where every detail GET raises. -/
def fetchNone : Str → FetchOutcome DetailPage := fun _ => FetchOutcome.exn

/-- A listing page with one `div-col` region holding one item link. -/
def listingOne : ListingPage := [[⟨['S'], ['/', 'S']⟩]]

def candA : Str × Str := (['A'], ['/', 'A'])

def candB : Str × Str := (['B'], ['/', 'B'])

def yes16 : Str := ['Y', 'e', 's', ' ', '(', '1', '6', ')']

/-- A detail page whose `"Stackable"` row reads `"Yes (16)"`. -/
def pageYes16 : DetailPage := [[⟨some stackableStr, some yes16⟩]]

/-- A detail page whose `"Stackable"` row reads `"Yes (0)"`. -/
def pageYes0 : DetailPage := [[⟨some stackableStr, some ['Y', 'e', 's', ' ', '(', '0', ')']⟩]]

/-- A detail page with rows but no `"Stackable"` header anywhere. -/
def pageNoStackable : DetailPage :=
  [[⟨some ['F', 'o', 'o'], some yesStr⟩], [⟨none, some yesStr⟩]]

/-- The value-cell text `"(8) Yes (16)"`. -/
def text8Yes16 : Str := ['(', '8', ')', ' ', 'Y', 'e', 's', ' ', '(', '1', '6', ')']

/-- A world whose listing GET returns status 404. -/
def w404 : World := ⟨.response 404 [], fetchNone⟩

/-! ## Claims -/

/-- C1 (total accounting): for every run of the pool from the
candidates extracted from the listing page that drains the backlog
without interruption — under any completion interleaving — the length
of `items_data` saved to the output file equals the number of
candidates: every candidate yields exactly one record, none dropped
and none duplicated. -/
theorem total_accounting (fetch : Str → FetchOutcome DetailPage) (page : ListingPage)
    (n : Nat) (s : PoolState)
    (h : PoolRun fetch ⟨extractItemTuples page, []⟩ n s) (hdone : s.pending = []) :
    s.results.length = (extractItemTuples page).length := by
  obtain ⟨h1, h2, -, -⟩ := poolRun_invariant h
  simp only [hdone, List.length_nil] at h1 h2
  omega

theorem total_accounting_witness :
    (⟨[], [fetch_item_data fetchNone (['S'], wikiOrigin ++ ['/', 'S'])]⟩
        : PoolState).results.length
      = (extractItemTuples listingOne).length :=
  total_accounting fetchNone listingOne 1 _
    (PoolRun.tail (PoolRun.refl _)
      (PoolStep.complete [] [] (['S'], wikiOrigin ++ ['/', 'S']) []))
    rfl

/-- C2 (stack-size value parsing): when the scan of a detail page
selects a `"Stackable"` value-cell text `t`, the result of
`get_stackable_info` on a successful response is: the parenthesized
integer when `t` contains `"Yes"` and one is present; 64 when `t`
contains `"Yes"` and none is present; 1 when `t` does not contain
`"Yes"`. -/
theorem stackable_value_parse (page : DetailPage) (t : Str)
    (h : firstStackableValue page = some t) :
    (containsSub yesStr t = true →
      (∀ n, findParenInt t = some n →
        get_stackable_info (.response 200 page) = n) ∧
      (findParenInt t = none → get_stackable_info (.response 200 page) = 64)) ∧
    (containsSub yesStr t = false → get_stackable_info (.response 200 page) = 1) := by
  have base : get_stackable_info (.response 200 page) = stackFromText t := by
    simp [get_stackable_info, scanTables_eq, h]
  refine ⟨fun hy => ⟨fun n hn => ?_, fun hn => ?_⟩, fun hy => ?_⟩
  · simp [base, stackFromText, hy, hn]
  · simp [base, stackFromText, hy, hn]
  · simp [base, stackFromText, hy]

theorem stackable_value_parse_witness :
    get_stackable_info (.response 200 pageYes16) = 16 :=
  ((stackable_value_parse pageYes16 yes16 (by decide)).1 (by decide)).1 16 (by decide)

/-- C3 (listing-fetch failure is fatal and reported): when the GET of
the fixed listing URL returns a non-success status, `main` returns
before extracting or dispatching any candidate: no file is written, no
candidate is processed, and the failure message is printed. -/
theorem listing_fetch_failure_fatal (w : World) (status : Nat) (body : ListingPage)
    (hw : w.listing = .response status body) (hst : status ≠ 200) :
    runMain w = some { saved := none, dispatched := [], failureLogged := true } := by
  simp [runMain, hw, hst]

theorem listing_fetch_failure_fatal_witness :
    runMain w404 = some { saved := none, dispatched := [], failureLogged := true } :=
  listing_fetch_failure_fatal w404 404 [] rfl (by decide)

/-- C4 (interruption accounting): in any interleaving, after exactly
`K` of the dispatched candidates have completed their attempts, the
`items_data` list saved at that moment holds exactly `K` records,
never more than the number of candidates dispatched, and each record
is the well-formed record of some dispatched candidate. -/
theorem interruption_accounting (fetch : Str → FetchOutcome DetailPage)
    (cands : List (Str × Str)) (K : Nat) (s : PoolState)
    (h : PoolRun fetch ⟨cands, []⟩ K s) :
    s.results.length = K ∧ s.results.length ≤ cands.length ∧
      ∀ r ∈ s.results, ∃ c ∈ cands, r = fetch_item_data fetch c := by
  obtain ⟨h1, h2, -, h4⟩ := poolRun_invariant h
  simp only [List.length_nil] at h1 h2
  refine ⟨by omega, by omega, fun r hr => ?_⟩
  rcases h4 r hr with hmem | ⟨c, hc, he⟩
  · simp at hmem
  · exact ⟨c, hc, he⟩

theorem interruption_accounting_witness :
    (⟨[candB], [fetch_item_data fetchNone candA]⟩ : PoolState).results.length = 1 ∧
    (⟨[candB], [fetch_item_data fetchNone candA]⟩ : PoolState).results.length ≤
      ([candA, candB] : List (Str × Str)).length :=
  have h := interruption_accounting fetchNone [candA, candB] 1 _
    (PoolRun.tail (PoolRun.refl _) (PoolStep.complete [] [candB] candA []))
  ⟨h.1, h.2.1⟩

/-- C5 counterexample: on the detail-page body whose `"Stackable"`
value cell reads `"Yes (0)"`, the record produced for a candidate has
stack size 0, so the claimed invariant `stack ≥ 1` fails for this
body. -/
theorem record_stack_ge_one_counterexample :
    (fetch_item_data (fun _ => .response 200 pageYes0) (['x'], ['u'])).stack = 0 ∧
    ¬ 1 ≤ (fetch_item_data (fun _ => .response 200 pageYes0) (['x'], ['u'])).stack := by
  decide

/-- C5 amended: every record ever appended has stack size at least 1,
except when the detail fetch succeeded with status 200 and the
selected `"Stackable"` value-cell text contains `"Yes"` with leftmost
parenthesized integer 0 (as in `"Yes (0)"`), in which case the stack
size is exactly 0. -/
theorem record_stack_amended (fetch : Str → FetchOutcome DetailPage) (c : Str × Str) :
    1 ≤ (fetch_item_data fetch c).stack ∨
      ((fetch_item_data fetch c).stack = 0 ∧
        ∃ page t, fetch c.2 = .response 200 page ∧
          firstStackableValue page = some t ∧
          containsSub yesStr t = true ∧ findParenInt t = some 0) := by
  unfold fetch_item_data
  cases hf : fetch c.2 with
  | exn => exact Or.inl (by simp [get_stackable_info])
  | response st body =>
    by_cases hst : st = 200
    · subst hst
      have hval : get_stackable_info (.response 200 body) =
          ((firstStackableValue body).map stackFromText).getD 1 := by
        simp [get_stackable_info, scanTables_eq]
        cases firstStackableValue body <;> simp
      cases hv : firstStackableValue body with
      | none => exact Or.inl (by simp [hval, hv])
      | some t =>
        by_cases hy : containsSub yesStr t = true
        · cases hp : findParenInt t with
          | some n =>
            have hstack : get_stackable_info (.response 200 body) = n := by
              simp [hval, hv, stackFromText, hy, hp]
            rcases Nat.eq_zero_or_pos n with h0 | h1
            · subst h0
              exact Or.inr ⟨by simp [hstack], body, t, rfl, hv, hy, hp⟩
            · exact Or.inl (by simp [hstack]; omega)
          | none =>
            refine Or.inl ?_
            simp [hval, hv, stackFromText, hy, hp]
        · refine Or.inl ?_
          have hy' : containsSub yesStr t = false := by
            simpa using hy
          simp [hval, hv, stackFromText, hy']
    · exact Or.inl (by simp [get_stackable_info, hst])

/-- C6 (per-item failure swallowing): when the detail fetch for a URL
raises (network error, timeout, parse error) or returns a non-success
status, `get_stackable_info` — a total function in this model: it never
propagates an exception — returns the default 1; the record built by
`fetch_item_data` for that candidate carries stack size 1; and from
any pool state with pending candidates a further step exists, so the
run continues. -/
theorem per_item_failure_swallowed (fetch : Str → FetchOutcome DetailPage) (url : Str)
    (h : fetch url = .exn ∨ ∃ st body, fetch url = .response st body ∧ st ≠ 200) :
    get_stackable_info (fetch url) = 1 ∧
    (∀ name, (fetch_item_data fetch (name, url)).stack = 1) ∧
    (∀ s : PoolState, s.pending ≠ [] → ∃ s', PoolStep fetch s s') := by
  have h1 : get_stackable_info (fetch url) = 1 := by
    rcases h with h | ⟨st, body, h, hst⟩ <;> rw [h]
    · rfl
    · simp [get_stackable_info, hst]
  refine ⟨h1, fun name => h1, fun s hs => ?_⟩
  obtain ⟨pending, results⟩ := s
  cases pending with
  | nil => exact absurd rfl hs
  | cons c rest => exact ⟨_, PoolStep.complete [] rest c results⟩

theorem per_item_failure_swallowed_witness :
    get_stackable_info (fetchNone ['u']) = 1 :=
  (per_item_failure_swallowed fetchNone ['u'] (Or.inl rfl)).1

/-- C7 (missing-row default): on any detail-page body in which no
infobox table has a row whose header cell's trimmed text is exactly
`"Stackable"`, `get_stackable_info` on a successful response returns
1. -/
theorem missing_row_default (page : DetailPage)
    (h : ∀ t ∈ page, ∀ row ∈ t, row.th ≠ some stackableStr) :
    get_stackable_info (.response 200 page) = 1 := by
  have hnone : firstStackableValue page = none := by
    unfold firstStackableValue
    rw [List.findSome?_eq_none_iff]
    intro row hrow
    rcases List.mem_flatten.mp hrow with ⟨t, ht, hr⟩
    have hth := h t ht row hr
    cases hthv : row.th with
    | none => simp [matchingRow, hthv]
    | some hh =>
      cases htd : row.td with
      | none => simp [matchingRow, hthv, htd]
      | some v =>
        have : hh ≠ stackableStr := fun he => hth (by rw [hthv, he])
        simp [matchingRow, hthv, htd, this]
  simp [get_stackable_info, scanTables_eq, hnone]

theorem missing_row_default_witness :
    get_stackable_info (.response 200 pageNoStackable) = 1 :=
  missing_row_default pageNoStackable (by decide)

/-- C8 (listing filter and order): for every listing-page body, the
candidate extraction equals, in document order with no sorting and no
deduplication, the links of the `div-col` regions whose visible text
is non-empty and not exactly `"JE"` or `"BE"`, each paired with the
wiki origin prepended to its href. -/
theorem listing_filter_order (page : ListingPage) :
    extractItemTuples page =
      (page.flatten.filter keepLink).map fun l => (l.text, wikiOrigin ++ l.href) :=
  extractItemTuples_eq page

/-- C9 (first-matching-row selection): the result of
`get_stackable_info` on a successful response is determined by the
first row, over the infobox tables and their rows in document order,
whose header is exactly `"Stackable"` and which also has a value cell
— `"Stackable"` rows lacking a value cell are skipped and the scan
continues — with fallback 1 when no such row exists. -/
theorem first_matching_row_selection (page : DetailPage) :
    get_stackable_info (.response 200 page) =
      ((firstStackableValue page).map stackFromText).getD 1 := by
  simp [get_stackable_info, scanTables_eq]
  cases firstStackableValue page <;> simp

/-- C10 (leftmost parenthesized integer): when the selected value-cell
text contains `"Yes"`, the stack size is the result of trying the
anchored parenthesized-integer match at every position from the left
and taking the first success — the leftmost parenthesized integer in
the whole text, wherever it sits relative to `"Yes"` — with default
64. -/
theorem leftmost_paren_selection (t : Str) (h : containsSub yesStr t = true) :
    stackFromText t =
      (((List.range t.length).findSome? fun i => parenMatch (t.drop i)).getD 64) := by
  rw [← findParenInt_eq_range]
  cases hp : findParenInt t <;> simp [stackFromText, h, hp]

theorem leftmost_paren_selection_witness :
    (stackFromText text8Yes16 =
      (((List.range text8Yes16.length).findSome?
          fun i => parenMatch (text8Yes16.drop i)).getD 64)) ∧
    stackFromText text8Yes16 = 8 :=
  ⟨leftmost_paren_selection text8Yes16 (by decide), by decide⟩
